import Mathlib

/-!
Verification of the chat-completion / embeddings execution core of the
ai-gateway repository, as a shallow embedding in Lean 4.

The embedding models:
  * `execute` from `gateway/src/executor/chat_completion/mod.rs`
  * `handle_embeddings_invoke` from `src/executor/embeddings.rs`
  * the event-collector task spawned by both

Collaborators that live outside the embedded files (the HTTP layer,
`find_model_by_full_name`, `MessageMapper`, the provider engine factory,
`stream_chunks`, `basic_executor::execute`, `OpenAIEmbed`) are modelled as
parameters, or — where a claim depends on their behaviour — as definitions
written from the spec and marked as such in their doc comment.
-/

/-- Inference-provider part of a catalogue entry: provider kind, upstream
model name, optional custom endpoint (`llm_model.inference_provider`). -/
structure InferenceProvider where
  provider : String
  model_name : String
  endpoint : Option String
deriving Repr, DecidableEq

/-- A catalogue entry (`LlmModelDefinition`): the short model name, the
model provider, and the resolved inference-provider binding. The
caller-facing full name it is registered under is the key of the catalogue
pair. -/
structure LlmModelDefinition where
  model : String
  model_provider : String
  inference_provider : InferenceProvider
deriving Repr, DecidableEq

/-- Error taxonomy of the gateway API (spec section 7). -/
inductive GatewayApiError where
  | ModelNotFound (name : String)
  | CustomError (msg : String)
  | MessageMappingError (msg : String)
  | UpstreamError (msg : String)
deriving Repr, DecidableEq

/-- Per-request credential material attached by the transport layer. -/
inductive Credentials where
  | ApiKey (key : String)
  | OtherVariant (payload : String)
deriving Repr, DecidableEq

/-- A caller-supplied chat message, kept opaque: the executor only passes it
through the message mapper. -/
structure CompletionMessage where
  payload : String
deriving Repr, DecidableEq

/-- The engine-internal message representation produced by the mapper. -/
structure LangdbMessage where
  payload : String
deriving Repr, DecidableEq

/-- The `function` part of a caller-declared tool definition. -/
structure ToolFunction where
  name : String
  description : Option String
  parameters : String
deriving Repr, DecidableEq

/-- A caller-declared tool definition (`ChatCompletionTool`). -/
structure ChatCompletionTool where
  function : ToolFunction
deriving Repr, DecidableEq

/-- `GatewayTool { def: tool }`: the invocable capability wrapping one
caller-declared definition (field `def` renamed; `def` is a Lean keyword). -/
structure GatewayTool where
  defn : ChatCompletionTool
deriving Repr, DecidableEq

/-- Lightweight tool descriptor attached to model metadata (`ModelTool`):
name, description, and (always empty here) passed args. -/
structure ModelTool where
  name : String
  description : Option String
  passed_args : List String
deriving Repr, DecidableEq

/-- `ModelTools(Vec<ModelTool>)`. -/
abbrev ModelTools := List ModelTool

/-- `ModelType` of the metadata record. -/
inductive ModelType where
  | Completions
  | Embedding
  | Image
deriving Repr, DecidableEq

/-- Descriptive/telemetry metadata record (`Model`). `ExecutionOptions`
carries no claim-relevant data and is modelled as `Unit`. -/
structure Model where
  name : String
  description : Option String
  provider_name : String
  prompt_name : Option String
  model_params : List (String × String)
  execution_options : Unit
  input_args : List String
  tools : ModelTools
  model_type : ModelType
  response_schema : Option String
  credentials : Option Credentials
deriving Repr, DecidableEq

/-- Stop-event payload: stop reason plus final usage. -/
structure LlmStopEvent where
  stop_reason : String
  usage : Option Nat
deriving Repr, DecidableEq

/-- Tool-start event payload. -/
structure ToolStartEvent where
  tool_name : String
  payload : String
deriving Repr, DecidableEq

/-- First-token event payload: time to first token. -/
structure LlmFirstTokenEvent where
  ttft : Nat
deriving Repr, DecidableEq

/-- The tagged union of model-event kinds (`ModelEventType`); kinds not
special-cased by the collector are collapsed into `Other`. -/
inductive ModelEventType where
  | LlmStop (e : LlmStopEvent)
  | ToolStart (e : ToolStartEvent)
  | LlmFirstToken (e : LlmFirstTokenEvent)
  | Other (tag : String)
deriving Repr, DecidableEq

/-- `ModelEvent`: an event as emitted by the model instance. -/
structure ModelEvent where
  event : ModelEventType
deriving Repr, DecidableEq

/-- `ModelEventWithDetails`: an event paired with the metadata snapshot. -/
structure ModelEventWithDetails where
  event : ModelEvent
  model : Model
deriving Repr, DecidableEq

/-- Result of one collector run: the returned `(stop_event, tool_calls)`
pair, the events forwarded to the callback sink in forwarding order, the
ttft values recorded on the tracing span, and the number of channel items
the collector actually consumed before terminating. -/
structure CollectorResult where
  stop_event : Option LlmStopEvent
  tool_calls : Option (List ToolStartEvent)
  forwarded : List ModelEventWithDetails
  ttft_records : List Nat
  consumed : Nat
deriving Repr, DecidableEq

/-- The collector loop spawned by `execute` (mod.rs lines 146-182), run over
the finite list of items that arrive on the channel before it closes; the
end of the list is channel closure (`recv` returning `None`), while a `none`
item is an explicit `None` sent through the channel, on which
`while let Some(Some(msg))` also exits. Accumulators mirror the Rust locals
`stop_event` and `tool_calls`; `fwd`/`tt` collect the side effects in
reverse; `n` counts consumed items. -/
def collectorLoop (db : Model) :
    List (Option ModelEvent) → Option LlmStopEvent →
    Option (List ToolStartEvent) → List ModelEventWithDetails →
    List Nat → Nat → CollectorResult
  | [], stop, tools, fwd, tt, n => ⟨stop, tools, fwd.reverse, tt.reverse, n⟩
  | none :: _, stop, tools, fwd, tt, n => ⟨stop, tools, fwd.reverse, tt.reverse, n + 1⟩
  | some msg :: rest, stop, tools, fwd, tt, n =>
      let stop' := match msg.event with
        | .LlmStop e => some e
        | _ => stop
      let tools' := match msg.event with
        | .ToolStart e => some (tools.getD [] ++ [e])
        | _ => tools
      let tt' := match msg.event with
        | .LlmFirstToken e => e.ttft :: tt
        | _ => tt
      collectorLoop db rest stop' tools' (⟨msg, db⟩ :: fwd) tt' (n + 1)

/-- Entry point of the collector task: all accumulators start empty. -/
def collectorRun (db : Model) (items : List (Option ModelEvent)) : CollectorResult :=
  collectorLoop db items none none [] [] 0

/-- The events the collector actually receives from the channel: the `some`
payloads up to (and excluding) the first `none` item or channel closure. -/
def receivedEvents : List (Option ModelEvent) → List ModelEvent
  | [] => []
  | none :: _ => []
  | some e :: rest => e :: receivedEvents rest

/-- Number of channel items the collector consumes: everything up to closure,
or up to and including the first `none` sentinel. -/
def consumedCount : List (Option ModelEvent) → Nat
  | [] => 0
  | none :: _ => 1
  | some _ :: rest => consumedCount rest + 1

/-- Spec-side accumulator: the stop reason remembered after a list of events
(the last `LlmStop` payload, if any). -/
def lastStopFrom (init : Option LlmStopEvent) (es : List ModelEvent) : Option LlmStopEvent :=
  es.foldl (fun acc e =>
    match e.event with
    | .LlmStop s => some s
    | _ => acc) init

/-- Spec-side accumulator: the tool-start payloads of a list of events, in
order. -/
def toolStartsOf (es : List ModelEvent) : List ToolStartEvent :=
  es.foldr (fun e acc =>
    match e.event with
    | .ToolStart t => t :: acc
    | _ => acc) []

/-- Spec-side accumulator: the ttft values of a list of events, in order. -/
def ttftsOf (es : List ModelEvent) : List Nat :=
  es.foldr (fun e acc =>
    match e.event with
    | .LlmFirstToken t => t.ttft :: acc
    | _ => acc) []

/-- Combine an accumulated optional tool-call list with newly appended
payloads, mirroring the lazy `Some(vec![])` initialisation of the loop. -/
def toolAcc (tools : Option (List ToolStartEvent)) (ts : List ToolStartEvent) :
    Option (List ToolStartEvent) :=
  if ts = [] then tools else some (tools.getD [] ++ ts)

/-- Opaque handle to the provider engine selected by
`Provider::get_completion_engine_for_model` (outside the embedded files). -/
structure Engine where
  tag : String
deriving Repr, DecidableEq

/-- A prompt template; `Prompt::empty()` is the empty one. -/
structure Prompt where
  parts : List String
deriving Repr, DecidableEq

/-- The empty prompt template used by `execute`. -/
def Prompt.empty : Prompt := ⟨[]⟩

/-- `CompletionModelParams`: engine handle, provider name, prompt name. -/
structure CompletionModelParams where
  engine : Engine
  provider_name : String
  prompt_name : Option String
deriving Repr, DecidableEq

/-- The execution plan (`CompletionModelDefinition`). -/
structure CompletionModelDefinition where
  name : String
  model_params : CompletionModelParams
  input_args : List String
  prompt : Prompt
  tools : ModelTools
  db_model : Model
deriving Repr, DecidableEq

/-- Opaque runnable model instance produced by the factory. -/
structure ModelInstance where
  tag : String
deriving Repr, DecidableEq

/-- Opaque process-wide callback sink handle (`CallbackHandlerFn`). -/
structure CallbackHandlerFn where
  tag : String
deriving Repr, DecidableEq

/-- Opaque value standing for the stream produced by `stream_chunks`. -/
structure StreamResult where
  tag : String
deriving Repr, DecidableEq

/-- The inbound chat-completion request, restricted to the fields `execute`
reads: `model`, `messages`, `tools`, `stream`. -/
structure ChatCompletionRequest where
  model : String
  messages : List CompletionMessage
  tools : Option (List ChatCompletionTool)
  stream : Option Bool
deriving Repr, DecidableEq

/-- Insert into an association list with `HashMap` semantics: inserting an
existing key replaces its value (one entry per key), a new key is appended. -/
def mapInsert (m : List (String × GatewayTool)) (k : String) (v : GatewayTool) :
    List (String × GatewayTool) :=
  if m.any (fun p => p.1 = k) then
    m.map (fun p => if p.1 = k then (p.1, v) else p)
  else
    m ++ [(k, v)]

/-- The tool-capability mapping of `execute` (mod.rs lines 111-122): each
definition is wrapped into a `GatewayTool` and inserted keyed by its
function name, so a duplicate name overwrites the earlier entry. -/
def buildToolsMap (tools : List ChatCompletionTool) : List (String × GatewayTool) :=
  tools.foldl (fun m t => mapInsert m t.function.name ⟨t⟩) []

/-- Lookup in the association-list model of the capability map. -/
def mapLookup (m : List (String × GatewayTool)) (k : String) : Option GatewayTool :=
  (m.find? (fun p => p.1 = k)).map (fun p => p.2)

/-- The ordered tool-descriptor list of `execute` (mod.rs lines 73-82): one
`ModelTool` per supplied definition, duplicates and order retained. -/
def buildModelTools (tools : Option (List ChatCompletionTool)) : ModelTools :=
  (tools.getD []).map (fun t => ⟨t.function.name, t.function.description, []⟩)

/-- Modelled from the spec: `find_model_by_full_name` (crate `handler`, not
under `src/`): pure exact-name lookup of the caller-supplied full model name
in the configured catalogue, failing with `ModelNotFound`; no fuzzy
matching, no fallback. -/
def find_model_by_full_name (name : String)
    (provided_models : List (String × LlmModelDefinition)) :
    Except GatewayApiError LlmModelDefinition :=
  match provided_models.find? (fun m => m.1 = name) with
  | some m => .ok m.2
  | none => .error (.ModelNotFound name)

/-- The message-normalization loop of `execute` (mod.rs lines 134-142): each
caller message is mapped in order by the mapper `f`
(`MessageMapper::map_completions_message_to_langdb_message`, a parameter of
the embedding since it lives outside the embedded files); the first failure
aborts with that error. -/
def mapMessages (f : CompletionMessage → Except GatewayApiError LangdbMessage) :
    List CompletionMessage → Except GatewayApiError (List LangdbMessage)
  | [] => .ok []
  | m :: rest =>
    match f m with
    | .error e => .error e
    | .ok lm =>
      match mapMessages f rest with
      | .error e => .error e
      | .ok lms => .ok (lm :: lms)

/-- The caller messages on which the normalization loop actually invokes the
mapper before returning (all of them on success; everything up to and
including the first failing message otherwise). -/
def normalizeAttempts (f : CompletionMessage → Except GatewayApiError LangdbMessage) :
    List CompletionMessage → List CompletionMessage
  | [] => []
  | m :: rest =>
    match f m with
    | .error _ => [m]
    | .ok _ => m :: normalizeAttempts f rest

/-- Observable resource/ordering events of one `execute` run, in program
order. -/
inductive ResourceEvent where
  | modelRewritten
  | modelInstanceConstructed
  | channelCreated (capacity : Nat)
  | collectorSpawned
  | streamExecutorRan
  | batchExecutorRan
  | invokeRan
deriving Repr, DecidableEq

/-- The exact argument list `execute` passes to `stream_chunks`
(mod.rs lines 186-193): the plan, the instance, an empty initial list, the
normalized messages, the callback handler, and the tags — no channel sender
and no collector handle appear in this call. -/
structure StreamExecArgs where
  definition : CompletionModelDefinition
  model : ModelInstance
  initial : List LangdbMessage
  messages : List LangdbMessage
  callback : CallbackHandlerFn
  tags : List (String × String)
deriving Repr, DecidableEq

/-- The argument list `execute` passes to `basic_executor::execute`
(mod.rs lines 199-207); `sender_passed`/`handle_passed` record that the
channel sender `tx` and the collector join handle are handed over. -/
structure BatchExecArgs where
  request : ChatCompletionRequest
  model : ModelInstance
  messages : List LangdbMessage
  tags : List (String × String)
  sender_passed : Bool
  handle_passed : Bool
deriving Repr, DecidableEq

/-- Modelled from the spec: the aggregated response assembled by the batch
executor (`basic_executor::execute`, not under `src/`): one response
combining model output, usage, and the collector's `(stop_reason,
tool_calls)` record. -/
structure ChatCompletionResponse where
  content : String
  stop_reason : Option String
  tool_calls : Option (List ToolStartEvent)
  usage : Option Nat
deriving Repr, DecidableEq

/-- Modelled from the spec: `basic_executor::execute` (not under `src/`)
drives the model to completion, awaits the collector handle, and assembles
one aggregated response from the model output and the awaited
`(stop_reason, tool_calls)` pair; any upstream error aborts the whole call. -/
def basic_executor_execute (output : Except GatewayApiError (String × Option Nat))
    (awaited : Option LlmStopEvent × Option (List ToolStartEvent)) :
    Except GatewayApiError ChatCompletionResponse :=
  match output with
  | .error e => .error e
  | .ok (content, usage) =>
      .ok ⟨content, (awaited.1).map (fun s => s.stop_reason), awaited.2, usage⟩

/-- The `Either`-shaped value `execute` returns on success: the streaming
branch carries `stream_chunks`'s result, the batch branch the batch
executor's result. -/
inductive ExecOutcome where
  | streaming (res : Except GatewayApiError StreamResult)
  | batch (res : Except GatewayApiError ChatCompletionResponse)
deriving Repr

/-- Observables of one `execute` run: ordered resource events, the plan and
capability map handed to the model-instance factory, the (message, model,
user id) triples the normalizer was called with, the arguments given to each
executor, and the items that arrive on the event channel. -/
structure ExecLog where
  resources : List ResourceEvent := []
  factoryArg : Option CompletionModelDefinition := none
  factoryTools : Option (List (String × GatewayTool)) := none
  normalizeCalls : List (CompletionMessage × String × String) := []
  streamArgs : Option StreamExecArgs := none
  batchArgs : Option BatchExecArgs := none
  collectorItems : List (Option ModelEvent) := []
deriving Repr, DecidableEq

/-- Result and observables of one `execute` run. -/
structure ExecReturn where
  result : Except GatewayApiError ExecOutcome
  log : ExecLog
deriving Repr

/-- The metadata record `db_model` built by `execute` (mod.rs lines 84-96)
from the rewritten request: name and tools come from the rewritten request,
provider from the resolved binding, credentials from the transport layer. -/
def dbModelOf (llm_model : LlmModelDefinition) (key_credentials : Option Credentials)
    (request : ChatCompletionRequest) : Model :=
  { name := request.model
    description := some "Generated model for chat completion"
    provider_name := llm_model.inference_provider.provider
    prompt_name := none
    model_params := []
    execution_options := ()
    input_args := []
    tools := buildModelTools request.tools
    model_type := .Completions
    response_schema := none
    credentials := key_credentials }

/-- The execution plan (`completion_model_definition`) built by `execute`
(mod.rs lines 98-109) from the rewritten request: empty prompt, the shared
tool-descriptor list, and the metadata record. -/
def planOf (llm_model : LlmModelDefinition) (engine : Engine)
    (key_credentials : Option Credentials) (request : ChatCompletionRequest) :
    CompletionModelDefinition :=
  { name := request.model
    model_params :=
      { engine := engine
        provider_name := llm_model.model_provider
        prompt_name := none }
    input_args := []
    prompt := Prompt.empty
    tools := buildModelTools request.tools
    db_model := dbModelOf llm_model key_credentials request }

/-- Shallow embedding of `execute` (mod.rs lines 39-212). External
collaborators are parameters: `tagsRes` is `extract_tags`'s result,
`key_credentials` the transport-attached credentials, `getEngine` the
provider engine factory, `initInstance` the model-instance factory (its
`String` error is wrapped into `CustomError` as in line 132), `mapMsg` the
message mapper, `user_id` the value drawn from `uuid::Uuid::new_v4()`,
`streamExec` the streaming executor, and `batchEmitted`/`batchOutput` the
events the batch-path model emits into the channel and the batch model
output. The log records resource allocation in program order. -/
def execute
    (tagsRes : Except GatewayApiError (List (String × String)))
    (provided_models : List (String × LlmModelDefinition))
    (key_credentials : Option Credentials)
    (getEngine : LlmModelDefinition → ChatCompletionRequest → Option Credentials →
      Except GatewayApiError Engine)
    (initInstance : CompletionModelDefinition → List (String × GatewayTool) →
      Option String → Option String → Except String ModelInstance)
    (mapMsg : CompletionMessage → String → String → Except GatewayApiError LangdbMessage)
    (user_id : String)
    (streamExec : StreamExecArgs → Except GatewayApiError StreamResult)
    (batchEmitted : List (Option ModelEvent))
    (batchOutput : Except GatewayApiError (String × Option Nat))
    (callback_handler : CallbackHandlerFn)
    (request : ChatCompletionRequest) : ExecReturn :=
  match tagsRes with
  | .error e => ⟨.error e, {}⟩
  | .ok tags =>
  match find_model_by_full_name request.model provided_models with
  | .error e => ⟨.error e, {}⟩
  | .ok llm_model =>
  let request := { request with model := llm_model.inference_provider.model_name }
  match getEngine llm_model request key_credentials with
  | .error e => ⟨.error e, { resources := [.modelRewritten] }⟩
  | .ok engine =>
  let db_model : Model := dbModelOf llm_model key_credentials request
  let completion_model_definition : CompletionModelDefinition :=
    planOf llm_model engine key_credentials request
  let tools_map := buildToolsMap (request.tools.getD [])
  match initInstance completion_model_definition tools_map
      llm_model.inference_provider.endpoint
      (some llm_model.inference_provider.provider) with
  | .error e =>
      ⟨.error (.CustomError e),
       { resources := [.modelRewritten]
         factoryArg := some completion_model_definition
         factoryTools := some tools_map }⟩
  | .ok model =>
  let calls := (normalizeAttempts (fun m => mapMsg m request.model user_id)
      request.messages).map (fun m => (m, request.model, user_id))
  match mapMessages (fun m => mapMsg m request.model user_id) request.messages with
  | .error e =>
      ⟨.error e,
       { resources := [.modelRewritten, .modelInstanceConstructed]
         factoryArg := some completion_model_definition
         factoryTools := some tools_map
         normalizeCalls := calls }⟩
  | .ok messages =>
  let baseResources : List ResourceEvent :=
    [.modelRewritten, .modelInstanceConstructed, .channelCreated 1000, .collectorSpawned]
  if request.stream.getD false then
    let args : StreamExecArgs :=
      ⟨completion_model_definition, model, [], messages, callback_handler, tags⟩
    ⟨.ok (.streaming (streamExec args)),
     { resources := baseResources ++ [.streamExecutorRan]
       factoryArg := some completion_model_definition
       factoryTools := some tools_map
       normalizeCalls := calls
       streamArgs := some args
       collectorItems := [] }⟩
  else
    let args : BatchExecArgs := ⟨request, model, messages, tags, true, true⟩
    let col := collectorRun db_model batchEmitted
    ⟨.ok (.batch (basic_executor_execute batchOutput (col.stop_event, col.tool_calls))),
     { resources := baseResources ++ [.batchExecutorRan]
       factoryArg := some completion_model_definition
       factoryTools := some tools_map
       normalizeCalls := calls
       batchArgs := some args
       collectorItems := batchEmitted }⟩

/-- Caller input of an embeddings request (`Input`). -/
inductive EmbInput where
  | string (s : String)
  | array (v : List String)
deriving Repr, DecidableEq

/-- The inbound embeddings request, restricted to the fields
`handle_embeddings_invoke` reads. -/
structure CreateEmbeddingRequest where
  model : String
  input : EmbInput
  dimensions : Option Nat
deriving Repr, DecidableEq

/-- Parameters handed to the OpenAI embeddings adapter. -/
structure OpenAiEmbeddingParams where
  model : Option String
  dimensions : Option Nat
deriving Repr, DecidableEq

/-- Opaque error type of the embeddings path (`GatewayError`). -/
structure GatewayError where
  msg : String
deriving Repr, DecidableEq

/-- Opaque embeddings response (`async_openai CreateEmbeddingResponse`). -/
structure CreateEmbeddingResponse where
  tag : String
deriving Repr, DecidableEq

/-- The metadata record the embeddings collector builds inline for every
forwarded event (embeddings.rs lines 48-60): name is the catalogue entry's
short model name, provider is the literal `"openai"`, kind is `Embedding`. -/
def embCollectorModel (model_name : String) : Model :=
  { name := model_name
    description := none
    provider_name := "openai"
    prompt_name := none
    model_params := []
    execution_options := ()
    input_args := []
    tools := []
    model_type := .Embedding
    response_schema := none
    credentials := none }

/-- The collector task spawned by `handle_embeddings_invoke`
(embeddings.rs lines 44-63): it only forwards each received event, paired
with the inline metadata record, and exits on channel closure or on a `none`
sentinel item. -/
def embCollector (m : Model) : List (Option ModelEvent) → List ModelEventWithDetails
  | [] => []
  | none :: _ => []
  | some msg :: rest => ⟨msg, m⟩ :: embCollector m rest

/-- Observables of one `handle_embeddings_invoke` run. -/
structure EmbLog where
  resources : List ResourceEvent := []
  rewrittenModel : Option String := none
  adapterParams : Option OpenAiEmbeddingParams := none
  adapterApiKey : Option (Option String) := none
  invokeInput : Option EmbInput := none
  collectorItems : List (Option ModelEvent) := []
deriving Repr, DecidableEq

/-- Result and observables of one `handle_embeddings_invoke` run. -/
structure EmbReturn where
  result : Except GatewayError CreateEmbeddingResponse
  log : EmbLog
deriving Repr

/-- Shallow embedding of `handle_embeddings_invoke`
(embeddings.rs lines 21-75). `embedNew` is the fallible `OpenAIEmbed::new`
adapter constructor, `invokeRes` the adapter's invocation result, and
`emitted` the items the adapter sends into the event channel. -/
def handle_embeddings_invoke
    (llm_model : LlmModelDefinition)
    (key_credentials : Option Credentials)
    (embedNew : OpenAiEmbeddingParams → Option String → Except GatewayError Unit)
    (invokeRes : Except GatewayError CreateEmbeddingResponse)
    (emitted : List (Option ModelEvent))
    (request : CreateEmbeddingRequest) : EmbReturn :=
  let request := { request with model := llm_model.inference_provider.model_name }
  let params : OpenAiEmbeddingParams :=
    { model := some llm_model.model
      dimensions := request.dimensions }
  let input : EmbInput := request.input
  let api_key_credentials : Option String :=
    match key_credentials with
    | some (.ApiKey api_key) => some api_key
    | _ => none
  let baseResources : List ResourceEvent :=
    [.modelRewritten, .channelCreated 1000, .collectorSpawned]
  match embedNew params api_key_credentials with
  | .error e =>
      ⟨.error e,
       { resources := baseResources
         rewrittenModel := some request.model
         adapterParams := some params
         adapterApiKey := some api_key_credentials }⟩
  | .ok _ =>
      ⟨invokeRes,
       { resources := baseResources ++ [.modelInstanceConstructed, .invokeRan]
         rewrittenModel := some request.model
         adapterParams := some params
         adapterApiKey := some api_key_credentials
         invokeInput := some input
         collectorItems := emitted }⟩

/-- Appending one freshly pushed tool call to the accumulator commutes with
`toolAcc`. -/
theorem toolAcc_push (tools : Option (List ToolStartEvent)) (e : ToolStartEvent)
    (ts : List ToolStartEvent) :
    toolAcc (some (tools.getD [] ++ [e])) ts = toolAcc tools (e :: ts) := by
  cases ts with
  | nil => simp [toolAcc]
  | cons t ts => simp [toolAcc]

/-- Closed form of the collector loop for arbitrary accumulator values. -/
theorem collectorLoop_eq (db : Model) (items : List (Option ModelEvent)) :
    ∀ stop tools fwd tt n, collectorLoop db items stop tools fwd tt n =
      ⟨lastStopFrom stop (receivedEvents items),
       toolAcc tools (toolStartsOf (receivedEvents items)),
       fwd.reverse ++ (receivedEvents items).map (fun e => ⟨e, db⟩),
       tt.reverse ++ ttftsOf (receivedEvents items),
       n + consumedCount items⟩ := by
  induction items with
  | nil =>
    intro stop tools fwd tt n
    simp [collectorLoop, receivedEvents, consumedCount, lastStopFrom, toolStartsOf,
      ttftsOf, toolAcc]
  | cons head rest ih =>
    intro stop tools fwd tt n
    match head with
    | none =>
      simp [collectorLoop, receivedEvents, consumedCount, lastStopFrom, toolStartsOf,
        ttftsOf, toolAcc]
    | some msg =>
      obtain ⟨ev⟩ := msg
      cases ev with
      | LlmStop e =>
        simp only [collectorLoop, ih]
        simp [receivedEvents, consumedCount, lastStopFrom, toolStartsOf, ttftsOf]
        omega
      | ToolStart e =>
        simp only [collectorLoop, ih]
        simp [receivedEvents, consumedCount, lastStopFrom, toolStartsOf, ttftsOf,
          toolAcc_push]
        omega
      | LlmFirstToken e =>
        simp only [collectorLoop, ih]
        simp [receivedEvents, consumedCount, lastStopFrom, toolStartsOf, ttftsOf]
        omega
      | Other tag =>
        simp only [collectorLoop, ih]
        simp [receivedEvents, consumedCount, lastStopFrom, toolStartsOf, ttftsOf]
        omega

/-- Closed form of one collector run: stop reason is the last stop event
received, tool calls are the received tool starts in order (lazily
initialised), every received event is forwarded once in order, and the
number of consumed items is `consumedCount`. -/
theorem collectorRun_eq (db : Model) (items : List (Option ModelEvent)) :
    collectorRun db items =
      ⟨lastStopFrom none (receivedEvents items),
       toolAcc none (toolStartsOf (receivedEvents items)),
       (receivedEvents items).map (fun e => ⟨e, db⟩),
       ttftsOf (receivedEvents items),
       consumedCount items⟩ := by
  simpa using collectorLoop_eq db items none none [] [] 0

/-- The last caller-declared tool definition carrying a given name, wrapped
as a capability — the entry the `HashMap` collect leaves in the mapping. -/
def lastCapNamed (n : String) : List ChatCompletionTool → Option GatewayTool
  | [] => none
  | t :: rest =>
    match lastCapNamed n rest with
    | some v => some v
    | none => if t.function.name = n then some (⟨t⟩ : GatewayTool) else none

/-- A map state whose entries under one key form at most a singleton. -/
def filterSingleton (m : List (String × GatewayTool)) (n : String) : Prop :=
  m.filter (fun p => p.1 = n) = [] ∨
    ∃ w, m.filter (fun p => p.1 = n) = [(n, w)]

/-- Inserting under the key `n` leaves exactly one entry for `n`, bound to
the inserted value. -/
theorem mapInsert_filter_self (m : List (String × GatewayTool)) (n : String)
    (v : GatewayTool) (h : filterSingleton m n) :
    (mapInsert m n v).filter (fun p => p.1 = n) = [(n, v)] := by
  by_cases hany : m.any (fun p => p.1 = n)
  · have hmap : (m.map (fun p => if p.1 = n then (p.1, v) else p)).filter
        (fun p => p.1 = n) =
        (m.filter (fun p => p.1 = n)).map (fun p => if p.1 = n then (p.1, v) else p) := by
      rw [List.filter_map]
      congr 1
      apply List.filter_congr
      intro p _
      by_cases hp : p.1 = n <;> simp [hp]
    have hne : m.filter (fun p => p.1 = n) ≠ [] := by
      rcases List.any_eq_true.mp hany with ⟨p, hp, hpn⟩
      have : p ∈ m.filter (fun p => p.1 = n) := List.mem_filter.mpr ⟨hp, hpn⟩
      intro hcon
      rw [hcon] at this
      exact absurd this (List.not_mem_nil p)
    rcases h with h | ⟨w, hw⟩
    · exact absurd h hne
    · simp [mapInsert, hany, hmap, hw]
  · have hfil : m.filter (fun p => p.1 = n) = [] := by
      rcases h with h | ⟨w, hw⟩
      · exact h
      · exfalso
        apply hany
        have : (n, w) ∈ m.filter (fun p => p.1 = n) := by simp [hw]
        rcases List.mem_filter.mp this with ⟨hmem, _⟩
        exact List.any_eq_true.mpr ⟨(n, w), hmem, by simp⟩
    simp [mapInsert, hany, List.filter_append, hfil]

/-- Inserting under a different key leaves the entries for `n` unchanged. -/
theorem mapInsert_filter_ne (m : List (String × GatewayTool)) (k n : String)
    (v : GatewayTool) (hk : k ≠ n) :
    (mapInsert m k v).filter (fun p => p.1 = n) = m.filter (fun p => p.1 = n) := by
  by_cases hany : m.any (fun p => p.1 = k)
  · have hmap : (m.map (fun p => if p.1 = k then (p.1, v) else p)).filter
        (fun p => p.1 = n) =
        (m.filter (fun p => p.1 = n)).map (fun p => if p.1 = k then (p.1, v) else p) := by
      rw [List.filter_map]
      congr 1
      apply List.filter_congr
      intro p _
      by_cases hp : p.1 = k <;> simp [hp]
    have hfix : (m.filter (fun p => p.1 = n)).map
        (fun p => if p.1 = k then (p.1, v) else p) = m.filter (fun p => p.1 = n) := by
      have hptwise : ∀ p ∈ m.filter (fun p => p.1 = n),
          (if p.1 = k then (p.1, v) else p) = p := by
        intro p hp
        rcases List.mem_filter.mp hp with ⟨_, hpn⟩
        have hpn' : p.1 = n := by simpa using hpn
        have : p.1 ≠ k := by
          rw [hpn']
          exact fun hnk => hk hnk.symm
        simp [this]
      rw [List.map_congr_left hptwise]
      exact List.map_id _
    simp [mapInsert, hany, hmap, hfix]
  · have : ((n : String) = k) = False := by
      simp [eq_comm]
      exact hk
    simp [mapInsert, hany, List.filter_append, hk, this]

/-- Any single insertion preserves the at-most-one-entry-per-key state. -/
theorem mapInsert_filterSingleton (m : List (String × GatewayTool)) (k n : String)
    (v : GatewayTool) (h : filterSingleton m n) :
    filterSingleton (mapInsert m k v) n := by
  by_cases hkn : k = n
  · subst hkn
    right
    exact ⟨v, mapInsert_filter_self m k v h⟩
  · rw [filterSingleton, mapInsert_filter_ne m k n v hkn]
    exact h

/-- Closed form of the capability-map fold: the entries under any name `n`
are exactly the singleton binding `n` to the last supplied definition with
that name (or the starting state's entries when no such definition exists). -/
theorem buildLoop_filter (n : String) (tools : List ChatCompletionTool) :
    ∀ (m : List (String × GatewayTool)), filterSingleton m n →
    (tools.foldl (fun m t => mapInsert m t.function.name ⟨t⟩) m).filter
        (fun p => p.1 = n) =
      match lastCapNamed n tools with
      | some v => [(n, v)]
      | none => m.filter (fun p => p.1 = n) := by
  induction tools with
  | nil =>
    intro m _
    simp [lastCapNamed]
  | cons t rest ih =>
    intro m hm
    have hm' : filterSingleton (mapInsert m t.function.name ⟨t⟩) n :=
      mapInsert_filterSingleton m t.function.name n ⟨t⟩ hm
    rw [List.foldl_cons, ih _ hm']
    cases hl : lastCapNamed n rest with
    | some v => simp [lastCapNamed, hl]
    | none =>
      simp only [lastCapNamed, hl]
      by_cases hne : t.function.name = n
      · rw [hne] at *
        simp [mapInsert_filter_self m n ⟨t⟩ hm]
      · simp [hne, mapInsert_filter_ne m t.function.name n ⟨t⟩ hne]

/-- The capability mapping built by `execute` holds, for every tool name,
exactly one entry: the last supplied definition with that name (and none
when the name was never supplied). -/
theorem buildToolsMap_filter (n : String) (tools : List ChatCompletionTool) :
    (buildToolsMap tools).filter (fun p => p.1 = n) =
      match lastCapNamed n tools with
      | some v => [(n, v)]
      | none => [] := by
  have h := buildLoop_filter n tools [] (Or.inl rfl)
  rw [buildToolsMap] at *
  rw [h]
  cases lastCapNamed n tools <;> simp

/-- A successful normalization maps the caller messages one-to-one, in
order: the output is pointwise the mapper's result on the input. -/
theorem mapMessages_ok_forall₂
    (f : CompletionMessage → Except GatewayApiError LangdbMessage) :
    ∀ (l : List CompletionMessage) (out : List LangdbMessage),
      mapMessages f l = .ok out →
      List.Forall₂ (fun m lm => f m = .ok lm) l out := by
  intro l
  induction l with
  | nil =>
    intro out h
    simp only [mapMessages] at h
    cases h
    exact List.Forall₂.nil
  | cons m rest ih =>
    intro out h
    rw [mapMessages] at h
    cases hf : f m with
    | error e => rw [hf] at h; cases h
    | ok lm =>
      rw [hf] at h
      cases hr : mapMessages f rest with
      | error e => rw [hr] at h; cases h
      | ok lms =>
        rw [hr] at h
        cases h
        exact List.Forall₂.cons hf (ih lms hr)

/-- When normalization succeeds, the mapper was invoked on every caller
message. -/
theorem normalizeAttempts_of_ok
    (f : CompletionMessage → Except GatewayApiError LangdbMessage) :
    ∀ (l : List CompletionMessage) (out : List LangdbMessage),
      mapMessages f l = .ok out → normalizeAttempts f l = l := by
  intro l
  induction l with
  | nil => intro out _; rfl
  | cons m rest ih =>
    intro out h
    rw [mapMessages] at h
    cases hf : f m with
    | error e => rw [hf] at h; cases h
    | ok lm =>
      rw [hf] at h
      cases hr : mapMessages f rest with
      | error e => rw [hr] at h; cases h
      | ok lms =>
        rw [normalizeAttempts, hf, ih lms hr]

/-- If the mapper fails on one message (all earlier ones succeeding), the
whole normalization fails with exactly that message's error. -/
theorem mapMessages_error_of_first
    (f : CompletionMessage → Except GatewayApiError LangdbMessage) :
    ∀ (pre : List CompletionMessage) (m : CompletionMessage)
      (post : List CompletionMessage) (e : GatewayApiError),
      (∀ x ∈ pre, ∃ y, f x = .ok y) → f m = .error e →
      mapMessages f (pre ++ m :: post) = .error e := by
  intro pre
  induction pre with
  | nil =>
    intro m post e _ hm
    rw [List.nil_append, mapMessages, hm]
  | cons x pre ih =>
    intro m post e hpre hm
    obtain ⟨y, hy⟩ := hpre x (List.mem_cons_self x pre)
    rw [List.cons_append, mapMessages, hy,
      ih m post e (fun z hz => hpre z (List.mem_cons_of_mem x hz)) hm]

/-- Sample catalogue entry used by the concrete witnesses. -/
def sampleLlm : LlmModelDefinition :=
  ⟨"gpt-4", "openai", ⟨"openai", "gpt-4-upstream", none⟩⟩

/-- Sample catalogue used by the concrete witnesses. -/
def sampleModels : List (String × LlmModelDefinition) := [("openai/gpt-4", sampleLlm)]

/-- Sample engine factory that always succeeds. -/
def sampleGetEngine : LlmModelDefinition → ChatCompletionRequest → Option Credentials →
    Except GatewayApiError Engine :=
  fun _ _ _ => .ok ⟨"openai-engine"⟩

/-- Sample model-instance factory that always succeeds. -/
def sampleInit : CompletionModelDefinition → List (String × GatewayTool) →
    Option String → Option String → Except String ModelInstance :=
  fun _ _ _ _ => .ok ⟨"instance"⟩

/-- Sample message mapper that always succeeds. -/
def sampleMapMsg : CompletionMessage → String → String →
    Except GatewayApiError LangdbMessage :=
  fun m _ _ => .ok ⟨m.payload⟩

/-- Sample streaming executor. -/
def sampleStreamExec : StreamExecArgs → Except GatewayApiError StreamResult :=
  fun _ => .ok ⟨"stream"⟩

/-- Sample callback sink handle. -/
def sampleCb : CallbackHandlerFn := ⟨"cb"⟩

/-- Sample batch request: registered model, one message, no tools, no
stream flag. -/
def sampleRequest : ChatCompletionRequest :=
  ⟨"openai/gpt-4", [⟨"hello"⟩], none, none⟩

/-- C4: for every request whose model name is not in the catalogue,
`execute` fails with `ModelNotFound` and its observable log is empty — no
event channel is created, no collector task is spawned, and no model
instance is constructed on the resolution-failure path. -/
theorem unresolved_model_fails_before_any_allocation
    (tagsRes : Except GatewayApiError (List (String × String)))
    (provided_models : List (String × LlmModelDefinition))
    (key_credentials : Option Credentials)
    (getEngine : LlmModelDefinition → ChatCompletionRequest → Option Credentials →
      Except GatewayApiError Engine)
    (initInstance : CompletionModelDefinition → List (String × GatewayTool) →
      Option String → Option String → Except String ModelInstance)
    (mapMsg : CompletionMessage → String → String → Except GatewayApiError LangdbMessage)
    (user_id : String)
    (streamExec : StreamExecArgs → Except GatewayApiError StreamResult)
    (batchEmitted : List (Option ModelEvent))
    (batchOutput : Except GatewayApiError (String × Option Nat))
    (callback_handler : CallbackHandlerFn)
    (request : ChatCompletionRequest)
    (tags : List (String × String))
    (htags : tagsRes = Except.ok tags)
    (hmiss : ∀ m ∈ provided_models, m.1 ≠ request.model) :
    execute tagsRes provided_models key_credentials getEngine initInstance mapMsg
        user_id streamExec batchEmitted batchOutput callback_handler request =
      ⟨Except.error (GatewayApiError.ModelNotFound request.model), {}⟩ := by
  subst htags
  have hfind : find_model_by_full_name request.model provided_models =
      Except.error (GatewayApiError.ModelNotFound request.model) := by
    rw [find_model_by_full_name]
    have hn : provided_models.find? (fun m => m.1 = request.model) = none := by
      rw [List.find?_eq_none]
      intro m hm
      simpa using hmiss m hm
    rw [hn]
  simp [execute, hfind]

/-- Concrete instantiation of
`unresolved_model_fails_before_any_allocation`: the model name
`"unknown/model"` is absent from the sample catalogue and `execute` returns
`ModelNotFound` with an empty log. -/
theorem unresolved_model_fails_before_any_allocation_witness :
    (∀ m ∈ sampleModels, m.1 ≠ "unknown/model") ∧
    execute (Except.ok []) sampleModels none sampleGetEngine sampleInit sampleMapMsg
        "uid" sampleStreamExec [] (Except.ok ("out", none)) sampleCb
        ⟨"unknown/model", [], none, none⟩ =
      ⟨Except.error (GatewayApiError.ModelNotFound "unknown/model"), {}⟩ :=
  ⟨by decide,
   unresolved_model_fails_before_any_allocation (Except.ok []) sampleModels none
     sampleGetEngine sampleInit sampleMapMsg "uid" sampleStreamExec []
     (Except.ok ("out", none)) sampleCb ⟨"unknown/model", [], none, none⟩ []
     rfl (by decide)⟩

/-- C3: for every request that passes resolution, engine selection, instance
construction and normalization, `execute` returns the streaming branch if
and only if `stream = some true` (a missing flag defaults to batch), and
otherwise the batch branch, whose single value is exactly one aggregated
response or exactly one error, never both. -/
theorem stream_flag_selects_branch
    (tagsRes : Except GatewayApiError (List (String × String)))
    (provided_models : List (String × LlmModelDefinition))
    (key_credentials : Option Credentials)
    (getEngine : LlmModelDefinition → ChatCompletionRequest → Option Credentials →
      Except GatewayApiError Engine)
    (initInstance : CompletionModelDefinition → List (String × GatewayTool) →
      Option String → Option String → Except String ModelInstance)
    (mapMsg : CompletionMessage → String → String → Except GatewayApiError LangdbMessage)
    (user_id : String)
    (streamExec : StreamExecArgs → Except GatewayApiError StreamResult)
    (batchEmitted : List (Option ModelEvent))
    (batchOutput : Except GatewayApiError (String × Option Nat))
    (callback_handler : CallbackHandlerFn)
    (request : ChatCompletionRequest)
    (tags : List (String × String)) (llm : LlmModelDefinition) (engine : Engine)
    (inst : ModelInstance) (msgs : List LangdbMessage)
    (htags : tagsRes = Except.ok tags)
    (hfind : find_model_by_full_name request.model provided_models = Except.ok llm)
    (hengine : getEngine llm { request with model := llm.inference_provider.model_name }
      key_credentials = Except.ok engine)
    (hinit : initInstance
      (planOf llm engine key_credentials
        { request with model := llm.inference_provider.model_name })
      (buildToolsMap (request.tools.getD []))
      llm.inference_provider.endpoint
      (some llm.inference_provider.provider) = Except.ok inst)
    (hmsgs : mapMessages (fun m => mapMsg m llm.inference_provider.model_name user_id)
      request.messages = Except.ok msgs) :
    ((∃ s, (execute tagsRes provided_models key_credentials getEngine initInstance
        mapMsg user_id streamExec batchEmitted batchOutput callback_handler
        request).result = Except.ok (ExecOutcome.streaming s)) ↔
      request.stream = some true) ∧
    ((∃ b, (execute tagsRes provided_models key_credentials getEngine initInstance
        mapMsg user_id streamExec batchEmitted batchOutput callback_handler
        request).result = Except.ok (ExecOutcome.batch b)) ↔
      request.stream ≠ some true) ∧
    (∀ b, (execute tagsRes provided_models key_credentials getEngine initInstance
        mapMsg user_id streamExec batchEmitted batchOutput callback_handler
        request).result = Except.ok (ExecOutcome.batch b) →
      (∃ resp, b = Except.ok resp ∧ ¬ ∃ e, b = Except.error e) ∨
      (∃ e, b = Except.error e ∧ ¬ ∃ resp, b = Except.ok resp)) := by
  subst htags
  simp only [execute, hfind, hengine, hinit, hmsgs]
  rcases hs : request.stream with _ | b
  · simp only [Option.getD_none, Bool.false_eq_true, if_false]
    refine ⟨by simp, by simp, ?_⟩
    intro b hb
    simp only [Except.ok.injEq, ExecOutcome.batch.injEq] at hb
    subst hb
    cases batchOutput with
    | error e => simp [basic_executor_execute]
    | ok p => simp [basic_executor_execute]
  · cases b
    · simp only [Option.getD_some, if_false, Bool.false_eq_true]
      refine ⟨by simp, by simp, ?_⟩
      intro b hb
      simp only [Except.ok.injEq, ExecOutcome.batch.injEq] at hb
      subst hb
      cases batchOutput with
      | error e => simp [basic_executor_execute]
      | ok p => simp [basic_executor_execute]
    · simp only [Option.getD_some, if_true]
      refine ⟨by simp, by simp, ?_⟩
      intro b hb
      simp at hb

/-- Concrete instantiation of `stream_flag_selects_branch`: the sample
request carries no stream flag, so `execute` takes the batch branch. -/
theorem stream_flag_selects_branch_witness :
    (∃ b, (execute (Except.ok []) sampleModels none sampleGetEngine sampleInit
        sampleMapMsg "uid" sampleStreamExec [] (Except.ok ("out", none)) sampleCb
        sampleRequest).result = Except.ok (ExecOutcome.batch b)) ↔
      sampleRequest.stream ≠ some true :=
  (stream_flag_selects_branch (Except.ok []) sampleModels none sampleGetEngine
    sampleInit sampleMapMsg "uid" sampleStreamExec [] (Except.ok ("out", none))
    sampleCb sampleRequest [] sampleLlm ⟨"openai-engine"⟩ ⟨"instance"⟩ [⟨"hello"⟩]
    rfl rfl rfl rfl rfl).2.1

/-- C5: for every request that passes resolution, normalization and
instance construction, the run's resource trace is exactly: model rewritten,
instance constructed, bounded channel of capacity 1000 created, collector
task spawned, and only then the (stream or batch) executor run. -/
theorem channel_and_collector_precede_executor
    (tagsRes : Except GatewayApiError (List (String × String)))
    (provided_models : List (String × LlmModelDefinition))
    (key_credentials : Option Credentials)
    (getEngine : LlmModelDefinition → ChatCompletionRequest → Option Credentials →
      Except GatewayApiError Engine)
    (initInstance : CompletionModelDefinition → List (String × GatewayTool) →
      Option String → Option String → Except String ModelInstance)
    (mapMsg : CompletionMessage → String → String → Except GatewayApiError LangdbMessage)
    (user_id : String)
    (streamExec : StreamExecArgs → Except GatewayApiError StreamResult)
    (batchEmitted : List (Option ModelEvent))
    (batchOutput : Except GatewayApiError (String × Option Nat))
    (callback_handler : CallbackHandlerFn)
    (request : ChatCompletionRequest)
    (tags : List (String × String)) (llm : LlmModelDefinition) (engine : Engine)
    (inst : ModelInstance) (msgs : List LangdbMessage)
    (htags : tagsRes = Except.ok tags)
    (hfind : find_model_by_full_name request.model provided_models = Except.ok llm)
    (hengine : getEngine llm { request with model := llm.inference_provider.model_name }
      key_credentials = Except.ok engine)
    (hinit : initInstance
      (planOf llm engine key_credentials
        { request with model := llm.inference_provider.model_name })
      (buildToolsMap (request.tools.getD []))
      llm.inference_provider.endpoint
      (some llm.inference_provider.provider) = Except.ok inst)
    (hmsgs : mapMessages (fun m => mapMsg m llm.inference_provider.model_name user_id)
      request.messages = Except.ok msgs) :
    (execute tagsRes provided_models key_credentials getEngine initInstance mapMsg
        user_id streamExec batchEmitted batchOutput callback_handler
        request).log.resources =
      [ResourceEvent.modelRewritten, ResourceEvent.modelInstanceConstructed,
       ResourceEvent.channelCreated 1000, ResourceEvent.collectorSpawned,
       if request.stream.getD false then ResourceEvent.streamExecutorRan
       else ResourceEvent.batchExecutorRan] := by
  subst htags
  simp only [execute, hfind, hengine, hinit, hmsgs]
  split <;> simp_all

/-- Concrete instantiation of `channel_and_collector_precede_executor` on
the sample batch request. -/
theorem channel_and_collector_precede_executor_witness :
    (execute (Except.ok []) sampleModels none sampleGetEngine sampleInit
        sampleMapMsg "uid" sampleStreamExec [] (Except.ok ("out", none)) sampleCb
        sampleRequest).log.resources =
      [ResourceEvent.modelRewritten, ResourceEvent.modelInstanceConstructed,
       ResourceEvent.channelCreated 1000, ResourceEvent.collectorSpawned,
       if sampleRequest.stream.getD false then ResourceEvent.streamExecutorRan
       else ResourceEvent.batchExecutorRan] :=
  channel_and_collector_precede_executor (Except.ok []) sampleModels none
    sampleGetEngine sampleInit sampleMapMsg "uid" sampleStreamExec []
    (Except.ok ("out", none)) sampleCb sampleRequest [] sampleLlm
    ⟨"openai-engine"⟩ ⟨"instance"⟩ [⟨"hello"⟩] rfl rfl rfl rfl rfl

/-- C2: for every sequence of channel items the collector receives, every
received event is forwarded to the callback sink exactly once, paired with
the model metadata, in receipt order; a stop event updates the remembered
stop reason (last one wins), tool-start events are accumulated in receipt
order, first-token latencies are recorded, and the collector finishes with
the `(stop_event, tool_calls)` pair. -/
theorem collector_forwards_each_received_event_once
    (db : Model) (items : List (Option ModelEvent)) :
    (collectorRun db items).forwarded =
      (receivedEvents items).map (fun e => ⟨e, db⟩) ∧
    (collectorRun db items).stop_event = lastStopFrom none (receivedEvents items) ∧
    (collectorRun db items).tool_calls = toolAcc none (toolStartsOf (receivedEvents items)) ∧
    (collectorRun db items).ttft_records = ttftsOf (receivedEvents items) := by
  simp [collectorRun_eq]

/-- C7: message normalization is order-preserving and one-to-one per input
message, and the failure of any single message aborts the whole request with
that message's error before any executor runs. -/
theorem normalization_one_to_one_or_aborts
    (tagsRes : Except GatewayApiError (List (String × String)))
    (provided_models : List (String × LlmModelDefinition))
    (key_credentials : Option Credentials)
    (getEngine : LlmModelDefinition → ChatCompletionRequest → Option Credentials →
      Except GatewayApiError Engine)
    (initInstance : CompletionModelDefinition → List (String × GatewayTool) →
      Option String → Option String → Except String ModelInstance)
    (mapMsg : CompletionMessage → String → String → Except GatewayApiError LangdbMessage)
    (user_id : String)
    (streamExec : StreamExecArgs → Except GatewayApiError StreamResult)
    (batchEmitted : List (Option ModelEvent))
    (batchOutput : Except GatewayApiError (String × Option Nat))
    (callback_handler : CallbackHandlerFn)
    (request : ChatCompletionRequest)
    (tags : List (String × String)) (llm : LlmModelDefinition) (engine : Engine)
    (inst : ModelInstance)
    (htags : tagsRes = Except.ok tags)
    (hfind : find_model_by_full_name request.model provided_models = Except.ok llm)
    (hengine : getEngine llm { request with model := llm.inference_provider.model_name }
      key_credentials = Except.ok engine)
    (hinit : initInstance
      (planOf llm engine key_credentials
        { request with model := llm.inference_provider.model_name })
      (buildToolsMap (request.tools.getD []))
      llm.inference_provider.endpoint
      (some llm.inference_provider.provider) = Except.ok inst) :
    (∀ msgs, mapMessages (fun m => mapMsg m llm.inference_provider.model_name user_id)
        request.messages = Except.ok msgs →
      List.Forall₂
        (fun m lm => mapMsg m llm.inference_provider.model_name user_id = Except.ok lm)
        request.messages msgs) ∧
    (∀ pre m post e, request.messages = pre ++ m :: post →
      (∀ x ∈ pre, ∃ y, mapMsg x llm.inference_provider.model_name user_id = Except.ok y) →
      mapMsg m llm.inference_provider.model_name user_id = Except.error e →
      (execute tagsRes provided_models key_credentials getEngine initInstance mapMsg
          user_id streamExec batchEmitted batchOutput callback_handler
          request).result = Except.error e ∧
      ResourceEvent.streamExecutorRan ∉
        (execute tagsRes provided_models key_credentials getEngine initInstance mapMsg
          user_id streamExec batchEmitted batchOutput callback_handler
          request).log.resources ∧
      ResourceEvent.batchExecutorRan ∉
        (execute tagsRes provided_models key_credentials getEngine initInstance mapMsg
          user_id streamExec batchEmitted batchOutput callback_handler
          request).log.resources) := by
  subst htags
  constructor
  · intro msgs hmsgs
    exact mapMessages_ok_forall₂ _ request.messages msgs hmsgs
  · intro pre m post e hsplit hpre hm
    have herr : mapMessages
        (fun m => mapMsg m llm.inference_provider.model_name user_id)
        request.messages = Except.error e := by
      rw [hsplit]
      exact mapMessages_error_of_first _ pre m post e hpre hm
    simp only [execute, hfind, hengine, hinit, herr]
    refine ⟨?_, ?_, ?_⟩ <;> simp

/-- The mapper used by the concrete C7 witness: it rejects the message whose
payload is `"bad"`. -/
def sampleMapMsgFail : CompletionMessage → String → String →
    Except GatewayApiError LangdbMessage :=
  fun m _ _ =>
    if m.payload = "bad" then Except.error (GatewayApiError.MessageMappingError "bad message")
    else Except.ok ⟨m.payload⟩

/-- The request used by the concrete C7 witness: its second message fails
normalization. -/
def sampleRequestBad : ChatCompletionRequest :=
  ⟨"openai/gpt-4", [⟨"hello"⟩, ⟨"bad"⟩, ⟨"tail"⟩], none, none⟩

/-- Concrete instantiation of `normalization_one_to_one_or_aborts`: the
second message of the sample request fails to normalize, the request aborts
with that error, and no executor runs. -/
theorem normalization_one_to_one_or_aborts_witness :
    (execute (Except.ok []) sampleModels none sampleGetEngine sampleInit
        sampleMapMsgFail "uid" sampleStreamExec [] (Except.ok ("out", none)) sampleCb
        sampleRequestBad).result =
      Except.error (GatewayApiError.MessageMappingError "bad message") ∧
    ResourceEvent.streamExecutorRan ∉
      (execute (Except.ok []) sampleModels none sampleGetEngine sampleInit
        sampleMapMsgFail "uid" sampleStreamExec [] (Except.ok ("out", none)) sampleCb
        sampleRequestBad).log.resources ∧
    ResourceEvent.batchExecutorRan ∉
      (execute (Except.ok []) sampleModels none sampleGetEngine sampleInit
        sampleMapMsgFail "uid" sampleStreamExec [] (Except.ok ("out", none)) sampleCb
        sampleRequestBad).log.resources :=
  (normalization_one_to_one_or_aborts (Except.ok []) sampleModels none
    sampleGetEngine sampleInit sampleMapMsgFail "uid" sampleStreamExec []
    (Except.ok ("out", none)) sampleCb sampleRequestBad [] sampleLlm
    ⟨"openai-engine"⟩ ⟨"instance"⟩ rfl rfl rfl rfl).2
    [⟨"hello"⟩] ⟨"bad"⟩ [⟨"tail"⟩] (GatewayApiError.MessageMappingError "bad message")
    rfl
    (by
      intro x hx
      simp only [List.mem_singleton] at hx
      subst hx
      exact ⟨⟨"hello"⟩, rfl⟩)
    rfl

/-- C10: every call the normalization loop makes to the message mapper uses
the rewritten upstream model name and the single freshly generated
identifier `user_id` (the value drawn from `uuid::Uuid::new_v4()`, an input
of the run and not a field of the request or transport state); when
normalization succeeds there is exactly one call per caller message, in
order, all with that same identifier. -/
theorem fresh_uuid_normalizes_every_message
    (tagsRes : Except GatewayApiError (List (String × String)))
    (provided_models : List (String × LlmModelDefinition))
    (key_credentials : Option Credentials)
    (getEngine : LlmModelDefinition → ChatCompletionRequest → Option Credentials →
      Except GatewayApiError Engine)
    (initInstance : CompletionModelDefinition → List (String × GatewayTool) →
      Option String → Option String → Except String ModelInstance)
    (mapMsg : CompletionMessage → String → String → Except GatewayApiError LangdbMessage)
    (user_id : String)
    (streamExec : StreamExecArgs → Except GatewayApiError StreamResult)
    (batchEmitted : List (Option ModelEvent))
    (batchOutput : Except GatewayApiError (String × Option Nat))
    (callback_handler : CallbackHandlerFn)
    (request : ChatCompletionRequest)
    (tags : List (String × String)) (llm : LlmModelDefinition) (engine : Engine)
    (inst : ModelInstance)
    (htags : tagsRes = Except.ok tags)
    (hfind : find_model_by_full_name request.model provided_models = Except.ok llm)
    (hengine : getEngine llm { request with model := llm.inference_provider.model_name }
      key_credentials = Except.ok engine)
    (hinit : initInstance
      (planOf llm engine key_credentials
        { request with model := llm.inference_provider.model_name })
      (buildToolsMap (request.tools.getD []))
      llm.inference_provider.endpoint
      (some llm.inference_provider.provider) = Except.ok inst) :
    (∀ c ∈ (execute tagsRes provided_models key_credentials getEngine initInstance
        mapMsg user_id streamExec batchEmitted batchOutput callback_handler
        request).log.normalizeCalls,
      c.2.1 = llm.inference_provider.model_name ∧ c.2.2 = user_id) ∧
    (∀ msgs, mapMessages (fun m => mapMsg m llm.inference_provider.model_name user_id)
        request.messages = Except.ok msgs →
      (execute tagsRes provided_models key_credentials getEngine initInstance
        mapMsg user_id streamExec batchEmitted batchOutput callback_handler
        request).log.normalizeCalls =
        request.messages.map (fun m => (m, llm.inference_provider.model_name, user_id))) := by
  subst htags
  constructor
  · intro c hc
    simp only [execute, hfind, hengine, hinit] at hc
    rcases hm : mapMessages
        (fun m => mapMsg m llm.inference_provider.model_name user_id)
        request.messages with e | msgs
    · rw [hm] at hc
      simp only [List.mem_map] at hc
      obtain ⟨m, _, hmc⟩ := hc
      subst hmc
      exact ⟨rfl, rfl⟩
    · rw [hm] at hc
      rcases hs : request.stream.getD false with _ | _ <;>
        rw [hs] at hc <;>
        simp only [if_true, if_false, Bool.false_eq_true, List.mem_map] at hc <;>
        obtain ⟨m, _, hmc⟩ := hc <;>
        subst hmc <;>
        exact ⟨rfl, rfl⟩
  · intro msgs hmsgs
    have hatt := normalizeAttempts_of_ok
      (fun m => mapMsg m llm.inference_provider.model_name user_id)
      request.messages msgs hmsgs
    simp only [execute, hfind, hengine, hinit, hmsgs, hatt]
    split <;> rfl

/-- Concrete instantiation of `fresh_uuid_normalizes_every_message` on the
sample batch request: one normalization call per message, each carrying the
generated identifier `"uid"`. -/
theorem fresh_uuid_normalizes_every_message_witness :
    (execute (Except.ok []) sampleModels none sampleGetEngine sampleInit
        sampleMapMsg "uid" sampleStreamExec [] (Except.ok ("out", none)) sampleCb
        sampleRequest).log.normalizeCalls =
      sampleRequest.messages.map
        (fun m => (m, sampleLlm.inference_provider.model_name, "uid")) :=
  (fresh_uuid_normalizes_every_message (Except.ok []) sampleModels none
    sampleGetEngine sampleInit sampleMapMsg "uid" sampleStreamExec []
    (Except.ok ("out", none)) sampleCb sampleRequest [] sampleLlm
    ⟨"openai-engine"⟩ ⟨"instance"⟩ rfl rfl rfl rfl).2 [⟨"hello"⟩] rfl

/-- C6: for every request, the capability mapping handed to the
model-instance factory holds, for any tool name, exactly one entry — bound
to the last supplied definition with that name — while the descriptor list
attached to the model metadata keeps one descriptor per supplied definition
(duplicates included) in declaration order. -/
theorem duplicate_tool_names_last_wins_in_capability_map
    (tagsRes : Except GatewayApiError (List (String × String)))
    (provided_models : List (String × LlmModelDefinition))
    (key_credentials : Option Credentials)
    (getEngine : LlmModelDefinition → ChatCompletionRequest → Option Credentials →
      Except GatewayApiError Engine)
    (initInstance : CompletionModelDefinition → List (String × GatewayTool) →
      Option String → Option String → Except String ModelInstance)
    (mapMsg : CompletionMessage → String → String → Except GatewayApiError LangdbMessage)
    (user_id : String)
    (streamExec : StreamExecArgs → Except GatewayApiError StreamResult)
    (batchEmitted : List (Option ModelEvent))
    (batchOutput : Except GatewayApiError (String × Option Nat))
    (callback_handler : CallbackHandlerFn)
    (request : ChatCompletionRequest)
    (tags : List (String × String)) (llm : LlmModelDefinition) (engine : Engine)
    (n : String)
    (htags : tagsRes = Except.ok tags)
    (hfind : find_model_by_full_name request.model provided_models = Except.ok llm)
    (hengine : getEngine llm { request with model := llm.inference_provider.model_name }
      key_credentials = Except.ok engine) :
    (execute tagsRes provided_models key_credentials getEngine initInstance mapMsg
        user_id streamExec batchEmitted batchOutput callback_handler
        request).log.factoryTools = some (buildToolsMap (request.tools.getD [])) ∧
    (execute tagsRes provided_models key_credentials getEngine initInstance mapMsg
        user_id streamExec batchEmitted batchOutput callback_handler
        request).log.factoryArg =
      some (planOf llm engine key_credentials
        { request with model := llm.inference_provider.model_name }) ∧
    (buildToolsMap (request.tools.getD [])).filter (fun p => p.1 = n) =
      (match lastCapNamed n (request.tools.getD []) with
       | some v => [(n, v)]
       | none => []) ∧
    (planOf llm engine key_credentials
        { request with model := llm.inference_provider.model_name }).db_model.tools =
      (request.tools.getD []).map
        (fun t => ⟨t.function.name, t.function.description, []⟩) := by
  subst htags
  refine ⟨?_, ?_, buildToolsMap_filter n (request.tools.getD []), ?_⟩
  · simp only [execute, hfind, hengine]
    split
    · rfl
    · split
      · rfl
      · split <;> rfl
  · simp only [execute, hfind, hengine]
    split
    · rfl
    · split
      · rfl
      · split <;> rfl
  · simp [planOf, dbModelOf, buildModelTools]

/-- First duplicate-named tool definition of the C6 witness. -/
def dupToolA : ChatCompletionTool := ⟨⟨"lookup", some "first", "params-a"⟩⟩

/-- Second duplicate-named tool definition of the C6 witness. -/
def dupToolB : ChatCompletionTool := ⟨⟨"lookup", some "second", "params-b"⟩⟩

/-- C6 witness request: two tool definitions sharing the name `"lookup"`. -/
def sampleRequestDup : ChatCompletionRequest :=
  ⟨"openai/gpt-4", [⟨"hello"⟩], some [dupToolA, dupToolB], none⟩

/-- Concrete instantiation of
`duplicate_tool_names_last_wins_in_capability_map`: with two definitions
named `"lookup"`, the mapping filter under `"lookup"` is the singleton
bound to the second definition, while the metadata descriptor list keeps
both entries in order. -/
theorem duplicate_tool_names_last_wins_in_capability_map_witness :
    (execute (Except.ok []) sampleModels none sampleGetEngine sampleInit
        sampleMapMsg "uid" sampleStreamExec [] (Except.ok ("out", none)) sampleCb
        sampleRequestDup).log.factoryTools =
      some (buildToolsMap (sampleRequestDup.tools.getD [])) ∧
    (execute (Except.ok []) sampleModels none sampleGetEngine sampleInit
        sampleMapMsg "uid" sampleStreamExec [] (Except.ok ("out", none)) sampleCb
        sampleRequestDup).log.factoryArg =
      some (planOf sampleLlm ⟨"openai-engine"⟩ none
        { sampleRequestDup with model := sampleLlm.inference_provider.model_name }) ∧
    (buildToolsMap (sampleRequestDup.tools.getD [])).filter (fun p => p.1 = "lookup") =
      (match lastCapNamed "lookup" (sampleRequestDup.tools.getD []) with
       | some v => [("lookup", v)]
       | none => []) ∧
    (planOf sampleLlm ⟨"openai-engine"⟩ none
        { sampleRequestDup with model := sampleLlm.inference_provider.model_name }).db_model.tools =
      (sampleRequestDup.tools.getD []).map
        (fun t => ⟨t.function.name, t.function.description, []⟩) :=
  duplicate_tool_names_last_wins_in_capability_map (Except.ok []) sampleModels none
    sampleGetEngine sampleInit sampleMapMsg "uid" sampleStreamExec []
    (Except.ok ("out", none)) sampleCb sampleRequestDup [] sampleLlm
    ⟨"openai-engine"⟩ "lookup" rfl rfl rfl

/-- C9: on the streaming branch, `execute` passes neither the channel
sender nor the collector handle to the streaming executor — its argument
list is exactly the plan, the instance, the empty initial list, the
normalized messages, the callback handler and the tags — no batch-executor
call happens, and the per-request event channel receives no items, so the
spawned collector forwards nothing. -/
theorem streaming_branch_receives_no_channel
    (tagsRes : Except GatewayApiError (List (String × String)))
    (provided_models : List (String × LlmModelDefinition))
    (key_credentials : Option Credentials)
    (getEngine : LlmModelDefinition → ChatCompletionRequest → Option Credentials →
      Except GatewayApiError Engine)
    (initInstance : CompletionModelDefinition → List (String × GatewayTool) →
      Option String → Option String → Except String ModelInstance)
    (mapMsg : CompletionMessage → String → String → Except GatewayApiError LangdbMessage)
    (user_id : String)
    (streamExec : StreamExecArgs → Except GatewayApiError StreamResult)
    (batchEmitted : List (Option ModelEvent))
    (batchOutput : Except GatewayApiError (String × Option Nat))
    (callback_handler : CallbackHandlerFn)
    (request : ChatCompletionRequest)
    (tags : List (String × String)) (llm : LlmModelDefinition) (engine : Engine)
    (inst : ModelInstance) (msgs : List LangdbMessage)
    (htags : tagsRes = Except.ok tags)
    (hfind : find_model_by_full_name request.model provided_models = Except.ok llm)
    (hengine : getEngine llm { request with model := llm.inference_provider.model_name }
      key_credentials = Except.ok engine)
    (hinit : initInstance
      (planOf llm engine key_credentials
        { request with model := llm.inference_provider.model_name })
      (buildToolsMap (request.tools.getD []))
      llm.inference_provider.endpoint
      (some llm.inference_provider.provider) = Except.ok inst)
    (hmsgs : mapMessages (fun m => mapMsg m llm.inference_provider.model_name user_id)
      request.messages = Except.ok msgs)
    (hstream : request.stream = some true) :
    (execute tagsRes provided_models key_credentials getEngine initInstance mapMsg
        user_id streamExec batchEmitted batchOutput callback_handler
        request).log.batchArgs = none ∧
    (execute tagsRes provided_models key_credentials getEngine initInstance mapMsg
        user_id streamExec batchEmitted batchOutput callback_handler
        request).log.streamArgs =
      some ⟨planOf llm engine key_credentials
          { request with model := llm.inference_provider.model_name },
        inst, [], msgs, callback_handler, tags⟩ ∧
    (execute tagsRes provided_models key_credentials getEngine initInstance mapMsg
        user_id streamExec batchEmitted batchOutput callback_handler
        request).log.collectorItems = [] ∧
    (collectorRun (dbModelOf llm key_credentials
        { request with model := llm.inference_provider.model_name })
      (execute tagsRes provided_models key_credentials getEngine initInstance mapMsg
        user_id streamExec batchEmitted batchOutput callback_handler
        request).log.collectorItems).forwarded = [] := by
  subst htags
  simp only [execute, hfind, hengine, hinit, hmsgs]
  simp only [hstream, Option.getD_some, if_true]
  refine ⟨?_, ?_, ?_, ?_⟩ <;> simp [collectorRun, collectorLoop]

/-- C9 witness request: the stream flag is set. -/
def sampleRequestStream : ChatCompletionRequest :=
  ⟨"openai/gpt-4", [⟨"hello"⟩], none, some true⟩

/-- Concrete instantiation of `streaming_branch_receives_no_channel` on the
sample streaming request. -/
theorem streaming_branch_receives_no_channel_witness :
    (execute (Except.ok []) sampleModels none sampleGetEngine sampleInit
        sampleMapMsg "uid" sampleStreamExec [] (Except.ok ("out", none)) sampleCb
        sampleRequestStream).log.batchArgs = none ∧
    (execute (Except.ok []) sampleModels none sampleGetEngine sampleInit
        sampleMapMsg "uid" sampleStreamExec [] (Except.ok ("out", none)) sampleCb
        sampleRequestStream).log.streamArgs =
      some ⟨planOf sampleLlm ⟨"openai-engine"⟩ none
          { sampleRequestStream with model := sampleLlm.inference_provider.model_name },
        ⟨"instance"⟩, [], [⟨"hello"⟩], sampleCb, []⟩ ∧
    (execute (Except.ok []) sampleModels none sampleGetEngine sampleInit
        sampleMapMsg "uid" sampleStreamExec [] (Except.ok ("out", none)) sampleCb
        sampleRequestStream).log.collectorItems = [] ∧
    (collectorRun (dbModelOf sampleLlm none
        { sampleRequestStream with model := sampleLlm.inference_provider.model_name })
      (execute (Except.ok []) sampleModels none sampleGetEngine sampleInit
        sampleMapMsg "uid" sampleStreamExec [] (Except.ok ("out", none)) sampleCb
        sampleRequestStream).log.collectorItems).forwarded = [] :=
  streaming_branch_receives_no_channel (Except.ok []) sampleModels none
    sampleGetEngine sampleInit sampleMapMsg "uid" sampleStreamExec []
    (Except.ok ("out", none)) sampleCb sampleRequestStream [] sampleLlm
    ⟨"openai-engine"⟩ ⟨"instance"⟩ [⟨"hello"⟩] rfl rfl rfl rfl rfl rfl

/-- When no `None` sentinel is ever sent, the collector consumes every item
that arrives before closure. -/
theorem consumedCount_eq_length (items : List (Option ModelEvent))
    (h : none ∉ items) : consumedCount items = items.length := by
  induction items with
  | nil => rfl
  | cons head rest ih =>
    cases head with
    | none => exact absurd (List.mem_cons_self none rest) h
    | some e =>
      rw [consumedCount, List.length_cons,
        ih (fun hmem => h (List.mem_cons_of_mem (some e) hmem))]

/-- A channel content used to refute the original termination claim: a
`None` sentinel is sent while the channel is still open and another event is
sent after it. -/
def sentinelItems : List (Option ModelEvent) :=
  [none, some ⟨ModelEventType.Other "late"⟩]

/-- Counterexample to C8 as stated: on a channel that delivers a `None`
sentinel followed by another event (so the channel is not yet closed — a
sender is still alive and sending), the collector terminates after
consuming only the sentinel, forwarding nothing and never receiving the
later event; it therefore does terminate while the channel remains open. -/
theorem collector_terminates_at_sentinel_counterexample :
    (collectorRun (embCollectorModel "m") sentinelItems).consumed = 1 ∧
    sentinelItems.length = 2 ∧
    (collectorRun (embCollectorModel "m") sentinelItems).forwarded = [] :=
  ⟨rfl, rfl, rfl⟩

/-- C8 (amended): the collector terminates when the event channel is closed
or when it receives a `None` sentinel item (consuming nothing further); when
no sentinel is sent it terminates exactly at channel closure, having
consumed every item; on termination it yields the accumulated
`(stop_event, tool_calls)` pair; the batch path's response is assembled from
that awaited pair, while the streaming branch's result is produced without
it and no batch-executor call occurs there. -/
theorem collector_termination_and_await
    (db : Model) (items : List (Option ModelEvent))
    (tagsRes : Except GatewayApiError (List (String × String)))
    (provided_models : List (String × LlmModelDefinition))
    (key_credentials : Option Credentials)
    (getEngine : LlmModelDefinition → ChatCompletionRequest → Option Credentials →
      Except GatewayApiError Engine)
    (initInstance : CompletionModelDefinition → List (String × GatewayTool) →
      Option String → Option String → Except String ModelInstance)
    (mapMsg : CompletionMessage → String → String → Except GatewayApiError LangdbMessage)
    (user_id : String)
    (streamExec : StreamExecArgs → Except GatewayApiError StreamResult)
    (batchEmitted : List (Option ModelEvent))
    (batchOutput : Except GatewayApiError (String × Option Nat))
    (callback_handler : CallbackHandlerFn)
    (request : ChatCompletionRequest)
    (tags : List (String × String)) (llm : LlmModelDefinition) (engine : Engine)
    (inst : ModelInstance) (msgs : List LangdbMessage)
    (htags : tagsRes = Except.ok tags)
    (hfind : find_model_by_full_name request.model provided_models = Except.ok llm)
    (hengine : getEngine llm { request with model := llm.inference_provider.model_name }
      key_credentials = Except.ok engine)
    (hinit : initInstance
      (planOf llm engine key_credentials
        { request with model := llm.inference_provider.model_name })
      (buildToolsMap (request.tools.getD []))
      llm.inference_provider.endpoint
      (some llm.inference_provider.provider) = Except.ok inst)
    (hmsgs : mapMessages (fun m => mapMsg m llm.inference_provider.model_name user_id)
      request.messages = Except.ok msgs) :
    (collectorRun db items).consumed = consumedCount items ∧
    (none ∉ items → (collectorRun db items).consumed = items.length) ∧
    (collectorRun db items).stop_event = lastStopFrom none (receivedEvents items) ∧
    (collectorRun db items).tool_calls = toolAcc none (toolStartsOf (receivedEvents items)) ∧
    (request.stream ≠ some true →
      (execute tagsRes provided_models key_credentials getEngine initInstance mapMsg
          user_id streamExec batchEmitted batchOutput callback_handler
          request).result =
        Except.ok (ExecOutcome.batch (basic_executor_execute batchOutput
          ((collectorRun (dbModelOf llm key_credentials
              { request with model := llm.inference_provider.model_name })
            batchEmitted).stop_event,
           (collectorRun (dbModelOf llm key_credentials
              { request with model := llm.inference_provider.model_name })
            batchEmitted).tool_calls)))) ∧
    (request.stream = some true →
      (execute tagsRes provided_models key_credentials getEngine initInstance mapMsg
          user_id streamExec batchEmitted batchOutput callback_handler
          request).result =
        Except.ok (ExecOutcome.streaming (streamExec
          ⟨planOf llm engine key_credentials
              { request with model := llm.inference_provider.model_name },
            inst, [], msgs, callback_handler, tags⟩)) ∧
      (execute tagsRes provided_models key_credentials getEngine initInstance mapMsg
          user_id streamExec batchEmitted batchOutput callback_handler
          request).log.batchArgs = none) := by
  subst htags
  refine ⟨?_, ?_, ?_, ?_, ?_, ?_⟩
  · rw [collectorRun_eq]
  · intro hns
    rw [collectorRun_eq]
    exact consumedCount_eq_length items hns
  · rw [collectorRun_eq]
  · rw [collectorRun_eq]
  · intro hne
    have hgd : request.stream.getD false = false := by
      rcases hs : request.stream with _ | b
      · rfl
      · cases b
        · rfl
        · exact absurd hs hne
    simp only [execute, hfind, hengine, hinit, hmsgs]
    simp only [hgd, Bool.false_eq_true, if_false]
  · intro hstream
    simp only [execute, hfind, hengine, hinit, hmsgs]
    simp only [hstream, Option.getD_some, if_true]
    exact ⟨trivial, trivial⟩

/-- A stop event used by the C8 witness. -/
def sampleStopEvent : ModelEvent := ⟨ModelEventType.LlmStop ⟨"stop", some 5⟩⟩

/-- Channel items used by the C8 witness: one stop event, no sentinel. -/
def sampleEmitted : List (Option ModelEvent) := [some sampleStopEvent]

/-- Concrete instantiation of `collector_termination_and_await`: with no
sentinel among the emitted items the collector drains the channel fully,
and the sample batch request's response is assembled from the collector's
awaited pair. -/
theorem collector_termination_and_await_witness :
    (none ∉ sampleEmitted →
      (collectorRun (embCollectorModel "m") sampleEmitted).consumed =
        sampleEmitted.length) ∧
    (sampleRequest.stream ≠ some true →
      (execute (Except.ok []) sampleModels none sampleGetEngine sampleInit
          sampleMapMsg "uid" sampleStreamExec sampleEmitted
          (Except.ok ("out", none)) sampleCb sampleRequest).result =
        Except.ok (ExecOutcome.batch (basic_executor_execute (Except.ok ("out", none))
          ((collectorRun (dbModelOf sampleLlm none
              { sampleRequest with model := sampleLlm.inference_provider.model_name })
            sampleEmitted).stop_event,
           (collectorRun (dbModelOf sampleLlm none
              { sampleRequest with model := sampleLlm.inference_provider.model_name })
            sampleEmitted).tool_calls)))) :=
  ⟨(collector_termination_and_await (embCollectorModel "m") sampleEmitted
      (Except.ok []) sampleModels none sampleGetEngine sampleInit sampleMapMsg "uid"
      sampleStreamExec sampleEmitted (Except.ok ("out", none)) sampleCb sampleRequest
      [] sampleLlm ⟨"openai-engine"⟩ ⟨"instance"⟩ [⟨"hello"⟩]
      rfl rfl rfl rfl rfl).2.1,
   (collector_termination_and_await (embCollectorModel "m") sampleEmitted
      (Except.ok []) sampleModels none sampleGetEngine sampleInit sampleMapMsg "uid"
      sampleStreamExec sampleEmitted (Except.ok ("out", none)) sampleCb sampleRequest
      [] sampleLlm ⟨"openai-engine"⟩ ⟨"instance"⟩ [⟨"hello"⟩]
      rfl rfl rfl rfl rfl).2.2.2.2.1⟩

/-- C1: for every request whose model name resolves, the model field is
rewritten to the binding's upstream model name before the plan is built and
before the instance is constructed — the plan and the metadata handed to
the factory carry the upstream name, and the whole run (chat or embeddings)
is invariant under the caller-facing name used to reach the same binding,
so that name reaches no downstream component. -/
theorem upstream_name_substituted_before_plan_and_instance
    (tagsRes : Except GatewayApiError (List (String × String)))
    (provided_models : List (String × LlmModelDefinition))
    (key_credentials : Option Credentials)
    (getEngine : LlmModelDefinition → ChatCompletionRequest → Option Credentials →
      Except GatewayApiError Engine)
    (initInstance : CompletionModelDefinition → List (String × GatewayTool) →
      Option String → Option String → Except String ModelInstance)
    (mapMsg : CompletionMessage → String → String → Except GatewayApiError LangdbMessage)
    (user_id : String)
    (streamExec : StreamExecArgs → Except GatewayApiError StreamResult)
    (batchEmitted : List (Option ModelEvent))
    (batchOutput : Except GatewayApiError (String × Option Nat))
    (callback_handler : CallbackHandlerFn)
    (request : ChatCompletionRequest)
    (m2 : String)
    (tags : List (String × String)) (llm : LlmModelDefinition) (engine : Engine)
    (llmE : LlmModelDefinition) (credE : Option Credentials)
    (embedNew : OpenAiEmbeddingParams → Option String → Except GatewayError Unit)
    (invokeRes : Except GatewayError CreateEmbeddingResponse)
    (emitted : List (Option ModelEvent))
    (embRequest : CreateEmbeddingRequest) (embM2 : String)
    (htags : tagsRes = Except.ok tags)
    (hfind1 : find_model_by_full_name request.model provided_models = Except.ok llm)
    (hfind2 : find_model_by_full_name m2 provided_models = Except.ok llm)
    (hengine : getEngine llm { request with model := llm.inference_provider.model_name }
      key_credentials = Except.ok engine) :
    (execute tagsRes provided_models key_credentials getEngine initInstance mapMsg
        user_id streamExec batchEmitted batchOutput callback_handler
        request).log.factoryArg =
      some (planOf llm engine key_credentials
        { request with model := llm.inference_provider.model_name }) ∧
    (planOf llm engine key_credentials
        { request with model := llm.inference_provider.model_name }).name =
      llm.inference_provider.model_name ∧
    (planOf llm engine key_credentials
        { request with model := llm.inference_provider.model_name }).db_model.name =
      llm.inference_provider.model_name ∧
    execute tagsRes provided_models key_credentials getEngine initInstance mapMsg
        user_id streamExec batchEmitted batchOutput callback_handler request =
      execute tagsRes provided_models key_credentials getEngine initInstance mapMsg
        user_id streamExec batchEmitted batchOutput callback_handler
        { request with model := m2 } ∧
    (handle_embeddings_invoke llmE credE embedNew invokeRes emitted
        embRequest).log.rewrittenModel = some llmE.inference_provider.model_name ∧
    handle_embeddings_invoke llmE credE embedNew invokeRes emitted embRequest =
      handle_embeddings_invoke llmE credE embedNew invokeRes emitted
        { embRequest with model := embM2 } := by
  subst htags
  refine ⟨?_, ?_, ?_, ?_, ?_, ?_⟩
  · simp only [execute, hfind1, hengine]
    split
    · rfl
    · split
      · rfl
      · split <;> rfl
  · simp [planOf]
  · simp [planOf, dbModelOf]
  · simp only [execute, hfind1, hfind2]
  · simp only [handle_embeddings_invoke]
    split <;> rfl
  · rfl

/-- A second catalogue for the C1 witness, registering the same binding
under two different caller-facing names. -/
def aliasedModels : List (String × LlmModelDefinition) :=
  [("openai/gpt-4", sampleLlm), ("openai/gpt4-alias", sampleLlm)]

/-- Embeddings request for the C1 witness. -/
def sampleEmbRequest : CreateEmbeddingRequest :=
  ⟨"openai/text-embed", EmbInput.string "hello", some 256⟩

/-- Concrete instantiation of
`upstream_name_substituted_before_plan_and_instance`: the sample request
reaches the same binding under two registered names, and both runs (and the
embeddings run) carry the upstream model name only. -/
theorem upstream_name_substituted_before_plan_and_instance_witness :
    (execute (Except.ok []) aliasedModels none sampleGetEngine sampleInit
        sampleMapMsg "uid" sampleStreamExec [] (Except.ok ("out", none)) sampleCb
        sampleRequest).log.factoryArg =
      some (planOf sampleLlm ⟨"openai-engine"⟩ none
        { sampleRequest with model := sampleLlm.inference_provider.model_name }) ∧
    (planOf sampleLlm ⟨"openai-engine"⟩ none
        { sampleRequest with model := sampleLlm.inference_provider.model_name }).name =
      sampleLlm.inference_provider.model_name ∧
    (planOf sampleLlm ⟨"openai-engine"⟩ none
        { sampleRequest with
            model := sampleLlm.inference_provider.model_name }).db_model.name =
      sampleLlm.inference_provider.model_name ∧
    execute (Except.ok []) aliasedModels none sampleGetEngine sampleInit
        sampleMapMsg "uid" sampleStreamExec [] (Except.ok ("out", none)) sampleCb
        sampleRequest =
      execute (Except.ok []) aliasedModels none sampleGetEngine sampleInit
        sampleMapMsg "uid" sampleStreamExec [] (Except.ok ("out", none)) sampleCb
        { sampleRequest with model := "openai/gpt4-alias" } ∧
    (handle_embeddings_invoke sampleLlm none (fun _ _ => Except.ok ())
        (Except.ok ⟨"emb"⟩) [] sampleEmbRequest).log.rewrittenModel =
      some sampleLlm.inference_provider.model_name ∧
    handle_embeddings_invoke sampleLlm none (fun _ _ => Except.ok ())
        (Except.ok ⟨"emb"⟩) [] sampleEmbRequest =
      handle_embeddings_invoke sampleLlm none (fun _ _ => Except.ok ())
        (Except.ok ⟨"emb"⟩) [] { sampleEmbRequest with model := "other/name" } :=
  upstream_name_substituted_before_plan_and_instance (Except.ok []) aliasedModels
    none sampleGetEngine sampleInit sampleMapMsg "uid" sampleStreamExec []
    (Except.ok ("out", none)) sampleCb sampleRequest "openai/gpt4-alias" []
    sampleLlm ⟨"openai-engine"⟩ sampleLlm none (fun _ _ => Except.ok ())
    (Except.ok ⟨"emb"⟩) [] sampleEmbRequest "other/name" rfl rfl rfl rfl
